import Mathlib

/-!
Verification of the annotation engine in `api/index.py` (the `_annotate_with_pysam`
path and its helpers).

Modelling conventions:
* Python ints are `Int`; Python floats are modelled as exact rationals `ℚ`.
  The float literal `1e-6` is modelled as `1/1000000` and `round(x, 3)` as
  round-half-to-even of `1000 * x` divided by `1000` (CPython's documented
  rounding mode).
* Python strings are processed as their character lists (`List Char`), with the
  string operations of the source (`split`, `strip`, `startswith`, ...) written
  as structural recursions so that every definition evaluates inside the kernel.
* The transcendental library calls `math.log1p` / `math.log(10)` are external
  collaborators (no claim depends on their values); they are passed in as a
  `PyMath` record.  `math.log1p` raises `ValueError` on arguments `≤ -1`,
  modelled by `Except Unit`.
* Python dictionaries are insertion-ordered association lists; an assignment to
  an existing key updates the value in place, keeping the key's position.
* Raised exceptions are modelled with `Except Unit`; `Except.error ()` marks a
  Python-level exception escaping the modelled code.
* The tabix region-query provider (`tbx.fetch`) is an external collaborator:
  a function from a chromosome name and a half-open window to either a lookup
  failure (`none`, modelling the `ValueError` caught at api/index.py line 179)
  or the list of raw tab-separated GTF lines the query yields.
-/

namespace Annota

/-- Equality on `Except` results is decidable componentwise. -/
instance decEqExcept {ε α : Type} [DecidableEq ε] [DecidableEq α] :
    DecidableEq (Except ε α) := fun a b =>
  match a, b with
  | .error e, .error f =>
    match decEq e f with
    | isTrue h => isTrue (by rw [h])
    | isFalse h => isFalse (fun hh => by cases hh; exact h rfl)
  | .error _, .ok _ => isFalse (fun hh => by cases hh)
  | .ok _, .error _ => isFalse (fun hh => by cases hh)
  | .ok x, .ok y =>
    match decEq x y with
    | isTrue h => isTrue (by rw [h])
    | isFalse h => isFalse (fun hh => by cases hh; exact h rfl)

/-- Python truthiness of an `Optional[str]` value: `None` and `""` are falsy. -/
def truthy : Option String → Bool
  | none => false
  | some s => s ≠ ""

/-- Python `x or y` on two `Optional[str]` values: `x` if truthy, else `y`. -/
def pyOr (x y : Option String) : Option String :=
  if truthy x then x else y

/-- Characters Python `str.strip()` removes (ASCII whitespace). -/
def pySpace (c : Char) : Bool :=
  c = ' ' || c = '\t' || c = '\n' || c = '\r' || c = '\x0b' || c = '\x0c'

/-- Drop trailing characters satisfying `p`. -/
def dropTailC (p : Char → Bool) (s : List Char) : List Char :=
  (s.reverse.dropWhile p).reverse

/-- Python `s.strip()`. -/
def trimC (s : List Char) : List Char :=
  dropTailC pySpace (s.dropWhile pySpace)

/-- Python `s.strip('"')`: remove every leading and trailing double quote. -/
def stripQuotes (s : List Char) : List Char :=
  dropTailC (fun c => c = '"') (s.dropWhile (fun c => c = '"'))

/-- Python `s.split(sep)` for a one-character separator. -/
def splitOnC (sep : Char) : List Char → List (List Char)
  | [] => [[]]
  | c :: cs =>
    if c = sep then [] :: splitOnC sep cs
    else
      match splitOnC sep cs with
      | [] => [[c]]
      | g :: gs => (c :: g) :: gs

/-- `pat` is a prefix of `s`. -/
def startsWithC : List Char → List Char → Bool
  | _, [] => true
  | [], _ :: _ => false
  | c :: cs, p :: ps => c = p && startsWithC cs ps

/-- `pat` is a suffix of `s`. -/
def endsWithC (s pat : List Char) : Bool :=
  startsWithC s.reverse pat.reverse

/-- Decimal digit test. -/
def digitC (c : Char) : Bool :=
  48 ≤ c.toNat && c.toNat ≤ 57

/-- Digit list to the natural number it denotes. -/
def digitsToNat (s : List Char) : Nat :=
  s.foldl (fun n c => 10 * n + (c.toNat - 48)) 0

/-- Python `int(s)`: optional surrounding whitespace, optional sign, then a
nonempty digit string; anything else raises `ValueError` (here `none`).
(The CPython extras — underscores between digits, non-ASCII digits — never
occur in the inputs at hand and are not modelled.) -/
def toIntC (s : List Char) : Option Int :=
  match trimC s with
  | [] => none
  | '-' :: rest =>
    if rest ≠ [] && rest.all digitC then some (-(digitsToNat rest : Int)) else none
  | '+' :: rest =>
    if rest ≠ [] && rest.all digitC then some (digitsToNat rest : Int) else none
  | t =>
    if t.all digitC then some (digitsToNat t : Int) else none

/-- Assignment `d[k] = v` on an insertion-ordered dictionary: update in place
if the key exists, else append. -/
def setA (d : List (String × String)) (k v : String) : List (String × String) :=
  match d with
  | [] => [(k, v)]
  | (k0, v0) :: rest => if k0 = k then (k, v) :: rest else (k0, v0) :: setA rest k v

/-- One iteration of the loop body of `attr_dict` (api/index.py lines 140-145):
trim the field, skip it when empty or when it has no space, else split at the
first space into key and value, trim the value and strip surrounding quotes. -/
def attrField (d : List (String × String)) (field : List Char) : List (String × String) :=
  let f := trimC field
  if f = [] then d
  else if f.any (fun c => c = ' ') then
    let k := f.takeWhile (fun c => c ≠ ' ')
    let v := f.drop (k.length + 1)
    setA d (String.mk k) (String.mk (stripQuotes (trimC v)))
  else d

/-- `attr_dict` (api/index.py lines 138-146): split the attribute column on `;`
and fold the fields into a dictionary. -/
def attr_dict (attr_str : List Char) : List (String × String) :=
  (splitOnC ';' (trimC attr_str)).foldl attrField []

/-- Python `d.get(k)`: `none` when the key is absent. -/
def aget (d : List (String × String)) (k : String) : Option String :=
  List.lookup k d

/-- `overlap_len` (api/index.py lines 148-149). -/
def overlap_len (a1 a2 b1 b2 : Int) : Int :=
  max 0 (min a2 b2 - max a1 b1)

/-- `biotype_rank` (api/index.py lines 151-160); the argument is the possibly
absent biotype string, with Python truthiness deciding the first guard. -/
def biotype_rank (bt : Option String) : Nat :=
  match bt with
  | none => 5
  | some b =>
    if b = "" then 5
    else if b = "protein_coding" then 0
    else if endsWithC b.data "RNA".data then 2
    else if endsWithC b.data "_decay".data then 3
    else if startsWithC b.data "sense_".data then 4
    else if b = "antisense" then 6
    else if startsWithC b.data "translated_".data then 7
    else if startsWithC b.data "transcribed_".data then 8
    else 5

/-- Modelled from the spec: the rank table of §4.5, written row by row in the
spec's order with first match winning.  Used only to compare against the
source's `biotype_rank`. -/
def specBiotypeRank (bt : Option String) : Nat :=
  if truthy bt = false then 5
  else
    let b := bt.getD ""
    if b = "protein_coding" then 0
    else if endsWithC b.data "RNA".data then 2
    else if endsWithC b.data "_decay".data then 3
    else if startsWithC b.data "sense_".data then 4
    else if b = "antisense" then 6
    else if startsWithC b.data "translated_".data then 7
    else if startsWithC b.data "transcribed_".data then 8
    else 5

/-- The external float library used by `score_transcript`: `math.log1p` (which
raises `ValueError`, i.e. `Except.error`, exactly on arguments `≤ -1`) and the
constant `math.log(10)`. -/
structure PyMath where
  log1p : Int → Except Unit ℚ
  log10 : ℚ

/-- The part of `score_transcript` before the length bonus (api/index.py
lines 163-165). -/
def score_base (tx_pct cds_pct exon_pct : ℚ) (bt : Option String) (has_hugo : Bool) : ℚ :=
  let s := 3 * tx_pct + 2 * cds_pct + 3 / 2 * exon_pct
  let s := s + max 0 (50 - 10 * (biotype_rank bt : ℚ))
  if has_hugo then s + 5 else s

/-- `score_transcript` (api/index.py lines 162-170).  The `try`/bare-`except`
around the length bonus catches the `ValueError` of `math.log1p`, so an error
of `M.log1p` leaves the score unchanged; the result type records that any
uncaught exception would escape. -/
def score_transcript (M : PyMath) (tx_pct cds_pct exon_pct : ℚ) (bt : Option String)
    (has_hugo : Bool) (tx_len : Int) : Except Unit ℚ :=
  let s := score_base tx_pct cds_pct exon_pct bt has_hugo
  if tx_len ≠ 0 then
    match M.log1p tx_len with
    | .ok v => .ok (s + min 10 (v / M.log10 * 5))
    | .error _ => .ok s
  else .ok s

/-- One transcript record of the `transcripts` dictionary
(api/index.py lines 197-201). -/
structure TxInfo where
  tx_id : String
  gene_id : Option String
  gene_name : Option String
  biotype : Option String
  strand : String
  tstart : Int
  tend : Int
deriving DecidableEq, Repr

/-- `exons_by_tx` / `cds_by_tx`: an insertion-ordered map from transcript id to
its appended 1-based inclusive spans. -/
abbrev SpanMap := List (String × List (Int × Int))

/-- `defaultdict(list)` append `m[k].append(sp)`. -/
def appendSpan (m : SpanMap) (k : String) (sp : Int × Int) : SpanMap :=
  match m with
  | [] => [(k, [sp])]
  | (k0, l) :: rest =>
    if k0 = k then (k0, l ++ [sp]) :: rest else (k0, l) :: appendSpan rest k sp

/-- `m.get(k, [])`. -/
def getSpans (m : SpanMap) (k : String) : List (Int × Int) :=
  (List.lookup k m).getD []

/-- Assignment `transcripts[tx_id] = info` (in-place update, insertion order). -/
def setTx (m : List (String × TxInfo)) (k : String) (v : TxInfo) : List (String × TxInfo) :=
  match m with
  | [] => [(k, v)]
  | (k0, v0) :: rest => if k0 = k then (k0, v) :: rest else (k0, v0) :: setTx rest k v

/-- The per-interval state built by the candidate-builder loop
(api/index.py lines 173-174): the transcript dictionary, the two span maps and
the `found` flag. -/
structure BuildState where
  transcripts : List (String × TxInfo)
  exons : SpanMap
  cds : SpanMap
  found : Bool
deriving DecidableEq

def emptyBuild : BuildState := ⟨[], [], [], false⟩

/-- `line.rstrip("\n").split("\t")` (api/index.py line 182). -/
def lineParts (l : String) : List (List Char) :=
  splitOnC '\t' (dropTailC (fun c => c = '\n') l.data)

/-- The feature-type dispatch for one overlapping line (api/index.py lines
189-203): a `transcript` line with a truthy `transcript_id` sets `found` and
upserts the transcript record (biotype from `transcript_biotype`, falling back
on `gene_biotype`); `exon` and `CDS` lines append their span; everything else
is ignored.  The Python locals `a`, `tx_id`, ... are inlined. -/
def dispatchLine (st : BuildState) (ftype strand attrs : List Char) (fs fe : Int) :
    BuildState :=
  if ftype = "transcript".data && truthy (aget (attr_dict attrs) "transcript_id") then
    { st with
      found := true
      transcripts := setTx st.transcripts
        ((aget (attr_dict attrs) "transcript_id").getD "")
        { tx_id := (aget (attr_dict attrs) "transcript_id").getD ""
          gene_id := aget (attr_dict attrs) "gene_id"
          gene_name := aget (attr_dict attrs) "gene_name"
          biotype := pyOr (aget (attr_dict attrs) "transcript_biotype")
            (aget (attr_dict attrs) "gene_biotype")
          strand := String.mk strand, tstart := fs, tend := fe } }
  else if ftype = "exon".data && truthy (aget (attr_dict attrs) "transcript_id") then
    { st with
      exons := appendSpan st.exons
        ((aget (attr_dict attrs) "transcript_id").getD "") (fs, fe) }
  else if ftype = "CDS".data && truthy (aget (attr_dict attrs) "transcript_id") then
    { st with
      cds := appendSpan st.cds
        ((aget (attr_dict attrs) "transcript_id").getD "") (fs, fe) }
  else st

/-- The body of `for line in it:` (api/index.py lines 181-203) for one raw
line.  Fewer than 9 tab fields skips the line; more than 9 makes the 9-way
tuple unpacking raise; non-integer coordinates make `int()` raise; a line whose
converted span does not overlap the query window is skipped; otherwise the line
is dispatched on its feature type. -/
def processLine (s0 e0 : Int) (st : BuildState) (l : String) : Except Unit BuildState :=
  if (lineParts l).length < 9 then .ok st
  else
    match lineParts l with
    | [_seq, _src, ftype, fstart, fend, _sc, strand, _ph, attrs] =>
      match toIntC fstart, toIntC fend with
      | some fs, some fe =>
        if overlap_len s0 e0 (fs - 1) fe ≤ 0 then .ok st
        else .ok (dispatchLine st ftype strand attrs fs fe)
      | _, _ => .error ()
    | _ => .error ()

/-- All lines of one query result, in order. -/
def processLines (s0 e0 : Int) (st : BuildState) (ls : List String) : Except Unit BuildState :=
  ls.foldlM (processLine s0 e0) st

/-- The region-query provider: `tbx.fetch(chrom_alt, start0, end0)`, where
`none` models the caught `ValueError` for an unknown chromosome name. -/
def Provider := String → Int → Int → Option (List String)

/-- One iteration of the variant loop (api/index.py lines 176-203): query one
chromosome-name variant; a lookup failure (`ValueError`, caught at line 179)
leaves the state unchanged and `continue`s, otherwise all yielded lines are
processed into the running state. -/
def queryVariant (prov : Provider) (name : String) (s0 e0 : Int) (st : BuildState) :
    Except Unit BuildState :=
  match prov name s0 e0 with
  | none => .ok st
  | some ls => processLines s0 e0 st ls

/-- The candidate-builder loop over chromosome-name variants
(api/index.py lines 172-204): bare name first, then the `chr`-prefixed name;
after a variant's lines have been processed the loop stops (`break`) when
`found` is set. -/
def buildCandidates (prov : Provider) (chrom : String) (s0 e0 : Int) :
    Except Unit BuildState := do
  let st ← queryVariant prov chrom s0 e0 emptyBuild
  if st.found then .ok st
  else queryVariant prov ("chr" ++ chrom) s0 e0 st

/-- Round half to even at integer resolution (CPython `round`). -/
def roundHalfEven (x : ℚ) : ℤ :=
  let f := x.floor
  if x - (f : ℚ) < 1 / 2 then f
  else if x - (f : ℚ) > 1 / 2 then f + 1
  else if f % 2 = 0 then f else f + 1

/-- Python `round(x, 3)`. -/
def pyround3 (x : ℚ) : ℚ :=
  (roundHalfEven (1000 * x) : ℚ) / 1000

/-- One output row / candidate dictionary.  A placeholder row and a scored
candidate share this shape (api/index.py lines 225-231 and 234-238). -/
structure Row where
  input_chr : String
  input_start : Int
  input_end : Int
  gene : Option String
  strand : Option String
  feature_biotype : Option String
  ensembl_id : Option String
  hugo : Option String
  tx_overlap_pct : ℚ
  exon_overlap_pct : ℚ
  cds_overlap_pct : ℚ
  priority_score : ℚ
deriving DecidableEq, Repr

/-- Transcript-level overlap percentage (api/index.py lines 208-211). -/
def txPct (s0 e0 tstart tend : Int) : ℚ :=
  let tx_total := max 0 (tend - tstart + 1)
  let tx_ol := overlap_len s0 e0 (tstart - 1) tend
  if tx_total > 0 then 100 * (tx_ol : ℚ) / (tx_total : ℚ) else 0

/-- Aggregate overlap percentage over a span list (api/index.py lines 213-221,
used for both the exon and the CDS aggregates). -/
def pctOf (s0 e0 : Int) (spans : List (Int × Int)) : ℚ :=
  let cov := (spans.map (fun p => overlap_len s0 e0 (p.1 - 1) p.2)).sum
  let total := (spans.map (fun p => (p.2 - p.1 + 1 : Int))).sum
  if total > 0 then 100 * (cov : ℚ) / (total : ℚ) else 0

/-- The full-precision composite score of one transcript as computed at
api/index.py line 223, before any rounding. -/
def candFullScore (M : PyMath) (s0 e0 : Int) (exM cdM : SpanMap) (info : TxInfo) :
    Except Unit ℚ :=
  score_transcript M (txPct s0 e0 info.tstart info.tend)
    (pctOf s0 e0 (getSpans cdM info.tx_id))
    (pctOf s0 e0 (getSpans exM info.tx_id))
    info.biotype (truthy info.gene_name)
    (max 0 (info.tend - info.tstart + 1))

/-- One candidate dictionary (api/index.py lines 206-231): the three
percentages and the score are computed at full precision and stored rounded to
3 decimal places. -/
def mkCandidate (M : PyMath) (chrom : String) (s0 e0 : Int) (exM cdM : SpanMap)
    (info : TxInfo) : Except Unit Row := do
  let score ← candFullScore M s0 e0 exM cdM info
  .ok { input_chr := chrom, input_start := s0, input_end := e0
        gene := info.gene_id, strand := some info.strand
        feature_biotype := info.biotype, ensembl_id := some info.tx_id
        hugo := info.gene_name
        tx_overlap_pct := pyround3 (txPct s0 e0 info.tstart info.tend)
        exon_overlap_pct := pyround3 (pctOf s0 e0 (getSpans exM info.tx_id))
        cds_overlap_pct := pyround3 (pctOf s0 e0 (getSpans cdM info.tx_id))
        priority_score := pyround3 score }

/-- The placeholder row for an interval with no candidates
(api/index.py lines 234-238). -/
def placeholderRow (chrom : String) (s0 e0 : Int) : Row :=
  { input_chr := chrom, input_start := s0, input_end := e0
    gene := none, strand := none, feature_biotype := none
    ensembl_id := none, hugo := none
    tx_overlap_pct := 0, exon_overlap_pct := 0, cds_overlap_pct := 0
    priority_score := 0 }

/-- Stable insertion preserving descending `priority_score` order. -/
def insertDesc (c : Row) : List Row → List Row
  | [] => [c]
  | d :: ds =>
    if d.priority_score > c.priority_score then d :: insertDesc c ds
    else c :: d :: ds

/-- `candidates.sort(key=priority_score, reverse=True)` (api/index.py line
241): Python's sort is stable, so this is the stable descending sort. -/
def sortByScore : List Row → List Row
  | [] => []
  | c :: cs => insertDesc c (sortByScore cs)

/-- The policy dispatch of api/index.py lines 243-249 on the sorted candidate
list.  `none` models the `IndexError` of `candidates[0]` on an empty list (the
engine never reaches it, since the empty case took the placeholder branch). -/
def resolvePicks (mode : String) (cands : List Row) : Option (List Row) :=
  if mode = "all" then some cands
  else if mode = "best_one" then
    match cands with
    | [] => none
    | c :: _ => some [c]
  else
    match cands with
    | [] => none
    | c :: _ =>
      some (cands.filter
        (fun x => decide (|x.priority_score - c.priority_score| < 1 / 1000000)))

/-- The running cross-interval summary state: `biotype_counter` and `gene_set`
(api/index.py line 136). -/
structure Summary where
  biotype_counter : List (String × Nat)
  gene_set : List String
deriving DecidableEq

def emptySummary : Summary := ⟨[], []⟩

/-- `Counter[k] += 1`. -/
def bumpCounter (m : List (String × Nat)) (k : String) : List (String × Nat) :=
  match m with
  | [] => [(k, 1)]
  | (k0, n) :: rest =>
    if k0 = k then (k0, n + 1) :: rest else (k0, n) :: bumpCounter rest k

/-- Value of a counter at a key (0 when absent). -/
def countOf (m : List (String × Nat)) (k : String) : Nat :=
  (List.lookup k m).getD 0

/-- `gene_set.add(g)` (set semantics on a duplicate-free list). -/
def addGene (s : List String) (g : String) : List String :=
  if s.contains g then s else s ++ [g]

/-- The per-pick summary update (api/index.py lines 253-255). -/
def updateSummary (sm : Summary) (c : Row) : Summary :=
  let sm :=
    if truthy c.feature_biotype then
      { sm with biotype_counter := bumpCounter sm.biotype_counter (c.feature_biotype.getD "") }
    else sm
  if truthy c.hugo then { sm with gene_set := addGene sm.gene_set (c.hugo.getD "") }
  else if truthy c.gene then { sm with gene_set := addGene sm.gene_set (c.gene.getD "") }
  else sm

/-- The `for tx_id, info in transcripts.items():` loop (api/index.py lines
206-231): one candidate dictionary per transcript, in insertion order; a
raised exception would escape the loop. -/
def mapCandidates (M : PyMath) (chrom : String) (s0 e0 : Int) (exM cdM : SpanMap) :
    List (String × TxInfo) → Except Unit (List Row)
  | [] => .ok []
  | p :: ps => do
    let r ← mkCandidate M chrom s0 e0 exM cdM p.2
    let rs ← mapCandidates M chrom s0 e0 exM cdM ps
    .ok (r :: rs)

/-- The body of the per-interval loop (api/index.py lines 172-255): build the
candidate state, score every transcript, emit the placeholder row when there
are no candidates, otherwise sort, resolve the ambiguity policy, append the
picked rows and fold the summary update over them. -/
def processInterval (M : PyMath) (mode : String) (prov : Provider)
    (chrom : String) (s0 e0 : Int) (acc : List Row × Summary) :
    Except Unit (List Row × Summary) := do
  let st ← buildCandidates prov chrom s0 e0
  let candidates ← mapCandidates M chrom s0 e0 st.exons st.cds st.transcripts
  if candidates = [] then
    .ok (acc.1 ++ [placeholderRow chrom s0 e0], acc.2)
  else
    match resolvePicks mode (sortByScore candidates) with
    | none => .error ()
    | some picks => .ok (acc.1 ++ picks, picks.foldl updateSummary acc.2)

/-- The whole run over the parsed interval list (api/index.py lines 136-255). -/
def runEngine (M : PyMath) (mode : String) (prov : Provider)
    (ivs : List (String × Int × Int)) : Except Unit (List Row × Summary) :=
  ivs.foldlM (fun acc iv => processInterval M mode prov iv.1 iv.2.1 iv.2.2 acc)
    ([], emptySummary)

/-- A raw line is well formed for the query window `[s0, e0)`: it has exactly 9
tab fields, integer coordinates, and its converted span overlaps the window.
Lines a conforming tabix region query yields satisfy this (tabix returns
exactly the catalog records whose 1-based inclusive span intersects the
window, which coincides with `overlap_len s0 e0 (fstart-1) fend > 0`). -/
def wfLine (s0 e0 : Int) (l : String) : Bool :=
  match lineParts l with
  | [_, _, _, fstart, fend, _, _, _, _] =>
    match toIntC fstart, toIntC fend with
    | some fs, some fe => decide (0 < overlap_len s0 e0 (fs - 1) fe)
    | _, _ => false
  | _ => false

/-- The raw line is a `transcript`-type line carrying a (truthy)
`transcript_id` attribute. -/
def txHit (l : String) : Bool :=
  match lineParts l with
  | [_, _, ftype, _, _, _, _, _, attrs] =>
    ftype = "transcript".data && truthy (aget (attr_dict attrs) "transcript_id")
  | _ => false

/-- Every span recorded in a span map overlaps the query window. -/
def SpanInv (s0 e0 : Int) (m : SpanMap) : Prop :=
  ∀ k l, (k, l) ∈ m → ∀ sp ∈ l, 0 < overlap_len s0 e0 (sp.1 - 1) sp.2

/-- Stable insertion preserving descending order on bare scores. -/
def insertDescQ (x : ℚ) : List ℚ → List ℚ
  | [] => [x]
  | y :: ys => if y > x then y :: insertDescQ x ys else x :: y :: ys

/-- Stable descending sort on bare scores. -/
def sortDescQ : List ℚ → List ℚ
  | [] => []
  | x :: xs => insertDescQ x (sortDescQ xs)

/-- Modelled from the spec (§4.6-4.7): the `best_all` rule applied to the
full-precision scores — sort descending and keep every score within `1e-6` of
the top one.  Used to compare the spec's full-precision reading against the
code, which stores and compares rounded scores. -/
def specBestAllFull (scores : List ℚ) : List ℚ :=
  match sortDescQ scores with
  | [] => []
  | t :: rest => (t :: rest).filter (fun s => decide (|s - t| < 1 / 1000000))

/-- A sample external float library for concrete witnesses: its `log1p` has the
CPython domain behavior (error exactly on arguments `≤ -1`) and returns `0`
elsewhere, and `log10` is `1`. -/
def M0 : PyMath := ⟨fun x => if x ≤ -1 then .error () else .ok 0, 1⟩

/-- A transcript of length 3000000 fully containing the window `[0, 1)`:
full-precision score `50 + 3 * (100/3000000) = 50.0001` under `M0`. -/
def infoCexA : TxInfo := ⟨"T1", none, none, some "protein_coding", "+", 1, 3000000⟩

/-- A transcript of length 750000 fully containing the window `[0, 1)`:
full-precision score `50 + 3 * (100/750000) = 50.0004` under `M0`. -/
def infoCexB : TxInfo := ⟨"T2", none, none, some "protein_coding", "+", 1, 750000⟩

/-- The candidate row the code builds for `infoCexA` (score stored rounded to
`50.0`). -/
def cexRow1 : Row :=
  ⟨"1", 0, 1, none, some "+", some "protein_coding", some "T1", none, 0, 0, 0, 50⟩

/-- The candidate row the code builds for `infoCexB` (score stored rounded to
`50.0`). -/
def cexRow2 : Row :=
  ⟨"1", 0, 1, none, some "+", some "protein_coding", some "T2", none, 0, 0, 0, 50⟩

/-- An exon-only raw line for transcript `T1`, span `[100, 200]`. -/
def lExonV1 : String := "1\tsrc\texon\t100\t200\t.\t+\t.\ttranscript_id \"T1\";"

/-- A transcript line for `T1`, span `[50, 900]`. -/
def lTxV2 : String :=
  "1\tsrc\ttranscript\t50\t900\t.\t+\t.\tgene_id \"G1\"; transcript_id \"T1\";"

/-- A second exon line for `T1`, span `[300, 400]`. -/
def lExonV2 : String := "1\tsrc\texon\t300\t400\t.\t+\t.\ttranscript_id \"T1\";"

/-- A provider whose bare-name query yields only an exon line (no transcript
line) and whose `chr`-prefixed query yields the transcript line plus a second
exon line. -/
def provC10 : Provider := fun chrom _ _ =>
  if chrom = "1" then some [lExonV1]
  else if chrom = "chr1" then some [lTxV2, lExonV2]
  else none

/-- A provider that fails every chromosome lookup. -/
def provNone : Provider := fun _ _ _ => none

/-- A sample emitted row for concrete summary-update checks: biotype and gene
id present, gene symbol absent. -/
def rowW : Row :=
  ⟨"1", 5, 9, some "G9", some "+", some "pc", some "T9", none, 1, 2, 3, 10⟩

/-- A sample running summary. -/
def smW : Summary := ⟨[("pc", 1)], ["g0"]⟩

end Annota

unseal Rat.add Rat.mul Rat.sub Rat.inv

namespace Annota

theorem exceptBind_ok {ε α β : Type} (a : α) (f : α → Except ε β) :
    (Except.ok a >>= f) = f a := rfl

theorem insertDesc_ne_nil (c : Row) (l : List Row) : insertDesc c l ≠ [] := by
  cases l with
  | nil => simp [insertDesc]
  | cons d ds => simp only [insertDesc]; split <;> simp

theorem sortByScore_cons (cands : List Row) (h : cands ≠ []) :
    ∃ t rest, sortByScore cands = t :: rest := by
  cases cands with
  | nil => exact absurd rfl h
  | cons c cs =>
    have hne : insertDesc c (sortByScore cs) ≠ [] := insertDesc_ne_nil c _
    obtain ⟨t, rest, ht⟩ := List.exists_cons_of_ne_nil hne
    exact ⟨t, rest, by simp [sortByScore, ht]⟩

/-- Claim C4: `biotype_rank` realizes exactly the spec's rank table, evaluated
first-match-wins in the spec's order (empty/absent 5; protein_coding 0; ends
with RNA 2; ends with _decay 3; starts with sense_ 4; equals antisense 6;
starts with translated_ 7; starts with transcribed_ 8; anything else 5). -/
theorem claim_C4_biotype_rank_table (bt : Option String) :
    biotype_rank bt = specBiotypeRank bt := by
  cases bt with
  | none => rfl
  | some b =>
    by_cases hb : b = ""
    · subst hb; rfl
    · simp [biotype_rank, specBiotypeRank, truthy, hb]

/-- Claim C9: any ambiguity-policy string other than `"all"` and `"best_one"`
falls into the `else` branch of the dispatch and behaves exactly like
`best_all`: every candidate within `1e-6` of the top score is kept. -/
theorem claim_C9_unrecognized_policy (mode : String) (cands : List Row)
    (hall : mode ≠ "all") (hone : mode ≠ "best_one") :
    resolvePicks mode cands = resolvePicks "best_all" cands ∧
    (∀ c cs, cands = c :: cs →
      resolvePicks mode cands =
        some ((c :: cs).filter
          (fun x => decide (|x.priority_score - c.priority_score| < 1 / 1000000)))) := by
  constructor
  · simp [resolvePicks, hall, hone]
  · intro c cs h
    subst h
    simp [resolvePicks, hall, hone]

theorem claim_C9_witness :
    resolvePicks "weird" [placeholderRow "1" 0 10] =
      resolvePicks "best_all" [placeholderRow "1" 0 10] :=
  (claim_C9_unrecognized_policy "weird" [placeholderRow "1" 0 10]
    (by decide) (by decide)).1

/-- Claim C5: on a non-empty sorted candidate list, `best_one` picks exactly
the head and `best_all` keeps every candidate within `1e-6` of the head's
score; the head passes its own filter, so the `best_all` output contains the
`best_one` output. -/
theorem claim_C5_best_all_superset (cands : List Row) (h : cands ≠ []) :
    ∃ top rest ball,
      sortByScore cands = top :: rest ∧
      resolvePicks "best_one" (sortByScore cands) = some [top] ∧
      resolvePicks "best_all" (sortByScore cands) = some ball ∧
      ∀ r ∈ [top], r ∈ ball := by
  obtain ⟨top, rest, hs⟩ := sortByScore_cons cands h
  refine ⟨top, rest,
    (top :: rest).filter
      (fun x => decide (|x.priority_score - top.priority_score| < 1 / 1000000)),
    hs, ?_, ?_, ?_⟩
  · simp [hs, resolvePicks]
  · simp [hs, resolvePicks]
  · intro r hr
    simp only [List.mem_singleton] at hr
    subst hr
    refine List.mem_filter.mpr ⟨List.mem_cons_self _ _, ?_⟩
    simp

theorem claim_C5_witness :
    ∃ top rest ball,
      sortByScore [placeholderRow "1" 0 10] = top :: rest ∧
      resolvePicks "best_one" (sortByScore [placeholderRow "1" 0 10]) = some [top] ∧
      resolvePicks "best_all" (sortByScore [placeholderRow "1" 0 10]) = some ball ∧
      ∀ r ∈ [top], r ∈ ball :=
  claim_C5_best_all_superset [placeholderRow "1" 0 10] (by decide)

/-- Claim C7: the scorer returns a value (never lets an exception escape) for
every length input, and when the transcript length is non-positive the length
bonus contributes exactly zero: the result is the base score.  The second part
assumes the CPython domain behavior of `math.log1p` (error exactly on
arguments `≤ -1`); the `if tx_len:` guard handles length 0 and the bare
`except: pass` swallows the domain error for negative lengths. -/
theorem claim_C7_scorer_total_len_guard (M : PyMath) (tx cds exon : ℚ)
    (bt : Option String) (hugo : Bool) (len : Int) :
    (∃ q, score_transcript M tx cds exon bt hugo len = .ok q) ∧
    ((∀ x : Int, x ≤ -1 → M.log1p x = .error ()) → len ≤ 0 →
      score_transcript M tx cds exon bt hugo len =
        .ok (score_base tx cds exon bt hugo)) := by
  constructor
  · unfold score_transcript
    by_cases hl : len ≠ 0
    · simp only [if_pos hl]
      cases hv : M.log1p len with
      | error e => exact ⟨_, rfl⟩
      | ok v => exact ⟨_, rfl⟩
    · simp only [if_neg hl]
      exact ⟨_, rfl⟩
  · intro hdom hle
    by_cases h0 : len = 0
    · subst h0
      unfold score_transcript
      simp
    · have hneg : len ≤ -1 := by omega
      unfold score_transcript
      simp [h0, hdom len hneg]

theorem claim_C7_witness :
    (∃ q, score_transcript M0 1 2 3 none false (-4) = .ok q) ∧
    score_transcript M0 1 2 3 none false (-4) =
      .ok (score_base 1 2 3 none false) := by
  have h := claim_C7_scorer_total_len_guard M0 1 2 3 none false (-4)
  refine ⟨h.1, h.2 ?_ (by decide)⟩
  intro x hx
  show (if x ≤ -1 then Except.error () else Except.ok 0) = Except.error ()
  rw [if_pos hx]

/-- Claim C6: when the candidate builder returns an empty transcript map, the
engine appends exactly one placeholder row — all transcript fields null, all
percentages and the score 0 — leaves the running summary untouched, and the
ambiguity-policy dispatch is never reached (the empty-candidates branch
returns directly, for any policy string). -/
theorem claim_C6_empty_map_placeholder (M : PyMath) (mode : String)
    (prov : Provider) (chrom : String) (s0 e0 : Int) (acc : List Row × Summary)
    (st : BuildState) (hb : buildCandidates prov chrom s0 e0 = .ok st)
    (ht : st.transcripts = []) :
    processInterval M mode prov chrom s0 e0 acc =
      .ok (acc.1 ++ [placeholderRow chrom s0 e0], acc.2) ∧
    (placeholderRow chrom s0 e0).gene = none ∧
    (placeholderRow chrom s0 e0).strand = none ∧
    (placeholderRow chrom s0 e0).feature_biotype = none ∧
    (placeholderRow chrom s0 e0).ensembl_id = none ∧
    (placeholderRow chrom s0 e0).hugo = none ∧
    (placeholderRow chrom s0 e0).tx_overlap_pct = 0 ∧
    (placeholderRow chrom s0 e0).exon_overlap_pct = 0 ∧
    (placeholderRow chrom s0 e0).cds_overlap_pct = 0 ∧
    (placeholderRow chrom s0 e0).priority_score = 0 := by
  refine ⟨?_, rfl, rfl, rfl, rfl, rfl, rfl, rfl, rfl, rfl⟩
  unfold processInterval
  rw [hb, exceptBind_ok, ht]
  rfl

theorem claim_C6_witness :
    processInterval M0 "best_all" provNone "2" 0 1000 ([], emptySummary) =
      .ok ([placeholderRow "2" 0 1000], emptySummary) :=
  (claim_C6_empty_map_placeholder M0 "best_all" provNone "2" 0 1000
    ([], emptySummary) emptyBuild rfl rfl).1

theorem countOf_bump (m : List (String × Nat)) (k : String) :
    countOf (bumpCounter m k) k = countOf m k + 1 := by
  induction m with
  | nil => simp [bumpCounter, countOf, List.lookup]
  | cons p rest ih =>
    obtain ⟨k0, n⟩ := p
    by_cases hk : k0 = k
    · subst hk
      simp [bumpCounter, countOf, List.lookup]
    · have hk2 : (k == k0) = false := beq_eq_false_iff_ne.mpr (Ne.symm hk)
      simp only [bumpCounter, if_neg hk, countOf, List.lookup, hk2]
      exact ih

theorem mem_addGene (s : List String) (g0 g : String) :
    g ∈ addGene s g0 ↔ (g ∈ s ∨ g = g0) := by
  unfold addGene
  by_cases h : s.contains g0
  · simp only [if_pos h]
    constructor
    · exact Or.inl
    · rintro (hg | rfl)
      · exact hg
      · exact List.mem_of_elem_eq_true h
  · simp only [if_neg h]
    simp [List.mem_append]

/-- Claim C8: one summary update per emitted row (the engine folds this update
over the picked rows): the biotype counter at the row's biotype is incremented
exactly when the biotype is present; the gene symbol is added to the gene set
when present, else the gene id when present, and a row with neither leaves the
gene set unchanged. -/
theorem claim_C8_summary_update (sm : Summary) (c : Row) :
    (truthy c.feature_biotype = true →
      countOf (updateSummary sm c).biotype_counter (c.feature_biotype.getD "") =
        countOf sm.biotype_counter (c.feature_biotype.getD "") + 1) ∧
    (truthy c.feature_biotype = false →
      (updateSummary sm c).biotype_counter = sm.biotype_counter) ∧
    (truthy c.hugo = true →
      ∀ g, g ∈ (updateSummary sm c).gene_set ↔
        (g ∈ sm.gene_set ∨ g = c.hugo.getD "")) ∧
    (truthy c.hugo = false → truthy c.gene = true →
      ∀ g, g ∈ (updateSummary sm c).gene_set ↔
        (g ∈ sm.gene_set ∨ g = c.gene.getD "")) ∧
    (truthy c.hugo = false → truthy c.gene = false →
      (updateSummary sm c).gene_set = sm.gene_set) := by
  refine ⟨fun hb => ?_, fun hb => ?_, fun hh => ?_, fun hh hg => ?_, fun hh hg => ?_⟩
  · unfold updateSummary
    simp only [hb, if_true]
    split <;> [skip; split] <;> simp [countOf_bump]
  · unfold updateSummary
    simp only [hb, Bool.false_eq_true, if_false]
    split <;> [skip; split] <;> simp
  · intro g
    unfold updateSummary
    simp only [hh, if_true]
    split <;> simp [mem_addGene]
  · intro g
    unfold updateSummary
    simp only [hh, hg, Bool.false_eq_true, if_false, if_true]
    split <;> simp [mem_addGene]
  · unfold updateSummary
    simp only [hh, hg, Bool.false_eq_true, if_false]
    split <;> simp

theorem claim_C8_witness :
    countOf (updateSummary smW rowW).biotype_counter "pc" =
      countOf smW.biotype_counter "pc" + 1 ∧
    ("G9" ∈ (updateSummary smW rowW).gene_set ↔
      ("G9" ∈ smW.gene_set ∨ "G9" = "G9")) := by
  have h := claim_C8_summary_update smW rowW
  exact ⟨h.1 (by decide), h.2.2.2.1 (by decide) (by decide) "G9"⟩

theorem exceptBind_error {ε α β : Type} (e : ε) (f : α → Except ε β) :
    ((Except.error e : Except ε α) >>= f) = Except.error e := rfl

theorem dispatchLine_found (st : BuildState) (f s a : List Char) (fs fe : Int) :
    (dispatchLine st f s a fs fe).found =
      (st.found || (f = "transcript".data &&
        truthy (aget (attr_dict a) "transcript_id"))) := by
  unfold dispatchLine
  by_cases h1 : (decide (f = "transcript".data) &&
      truthy (aget (attr_dict a) "transcript_id")) = true
  · rw [if_pos h1]
    simp only [h1, Bool.or_true]
  · rw [if_neg h1]
    have h1f : (decide (f = "transcript".data) &&
        truthy (aget (attr_dict a) "transcript_id")) = false :=
      Bool.eq_false_iff.mpr h1
    rw [h1f, Bool.or_false]
    split
    · rfl
    · split
      · rfl
      · rfl

theorem appendSpan_inv (s0 e0 : Int) (k : String) (sp : Int × Int)
    (hsp : 0 < overlap_len s0 e0 (sp.1 - 1) sp.2) :
    ∀ m : SpanMap, SpanInv s0 e0 m → SpanInv s0 e0 (appendSpan m k sp) := by
  intro m
  induction m with
  | nil =>
    intro _ k2 l2 hmem sp2 hsp2
    simp only [appendSpan, List.mem_singleton] at hmem
    injection hmem with ha hb
    subst ha
    subst hb
    simp only [List.mem_singleton] at hsp2
    subst hsp2
    exact hsp
  | cons p rest ih =>
    obtain ⟨k0, l0⟩ := p
    intro hm k2 l2 hmem sp2 hsp2
    have hm0 : SpanInv s0 e0 rest := fun a b hab => hm a b (List.mem_cons_of_mem _ hab)
    by_cases hk : k0 = k
    · simp only [appendSpan, if_pos hk] at hmem
      rcases List.mem_cons.mp hmem with heq | htail
      · injection heq with ha hb
        subst ha
        subst hb
        rcases List.mem_append.mp hsp2 with hl | hr
        · exact hm _ _ (List.mem_cons_self _ _) sp2 hl
        · simp only [List.mem_singleton] at hr
          subst hr
          exact hsp
      · exact hm0 k2 l2 htail sp2 hsp2
    · simp only [appendSpan, if_neg hk] at hmem
      rcases List.mem_cons.mp hmem with heq | htail
      · injection heq with ha hb
        subst ha
        subst hb
        exact hm _ _ (List.mem_cons_self _ _) sp2 hsp2
      · exact ih hm0 k2 l2 htail sp2 hsp2

theorem dispatchLine_spans (s0 e0 : Int) (st : BuildState) (f s a : List Char)
    (fs fe : Int) (hov : 0 < overlap_len s0 e0 (fs - 1) fe)
    (hex : SpanInv s0 e0 st.exons) (hcd : SpanInv s0 e0 st.cds) :
    SpanInv s0 e0 (dispatchLine st f s a fs fe).exons ∧
    SpanInv s0 e0 (dispatchLine st f s a fs fe).cds := by
  unfold dispatchLine
  split
  · exact ⟨hex, hcd⟩
  · split
    · exact ⟨appendSpan_inv s0 e0 _ (fs, fe) hov st.exons hex, hcd⟩
    · split
      · exact ⟨hex, appendSpan_inv s0 e0 _ (fs, fe) hov st.cds hcd⟩
      · exact ⟨hex, hcd⟩

theorem processLine_found (s0 e0 : Int) (st : BuildState) (l : String)
    (hw : wfLine s0 e0 l = true) :
    ∃ st2, processLine s0 e0 st l = .ok st2 ∧
      st2.found = (st.found || txHit l) := by
  unfold wfLine at hw
  split at hw
  case _ seq src ftype fstart fend sc strand ph attrs heq =>
    split at hw
    case _ fs fe hfs hfe =>
      have hov : 0 < overlap_len s0 e0 (fs - 1) fe := of_decide_eq_true hw
      have hovle : ¬ overlap_len s0 e0 (fs - 1) fe ≤ 0 := not_le.mpr hov
      refine ⟨dispatchLine st ftype strand attrs fs fe, ?_, ?_⟩
      · simp only [processLine, heq, hfs, hfe]
        rw [if_neg (by simp), if_neg hovle]
      · rw [dispatchLine_found]
        simp only [txHit, heq]
    all_goals simp at hw
  case _ => simp at hw

theorem processLine_spans (s0 e0 : Int) (st st2 : BuildState) (l : String)
    (h : processLine s0 e0 st l = .ok st2)
    (hex : SpanInv s0 e0 st.exons) (hcd : SpanInv s0 e0 st.cds) :
    SpanInv s0 e0 st2.exons ∧ SpanInv s0 e0 st2.cds := by
  unfold processLine at h
  split at h
  · injection h with h2
    subst h2
    exact ⟨hex, hcd⟩
  · split at h
    · split at h
      · split at h
        · injection h with h2
          subst h2
          exact ⟨hex, hcd⟩
        · rename_i hovle
          injection h with h2
          subst h2
          exact dispatchLine_spans s0 e0 st _ _ _ _ _ (not_le.mp hovle) hex hcd
      · exact Except.noConfusion h
    · exact Except.noConfusion h

theorem processLines_cons (s0 e0 : Int) (st : BuildState) (l : String)
    (ls : List String) :
    processLines s0 e0 st (l :: ls) =
      processLine s0 e0 st l >>= fun st1 => processLines s0 e0 st1 ls := rfl

theorem processLines_found (s0 e0 : Int) (ls : List String) :
    ∀ st : BuildState, (∀ l ∈ ls, wfLine s0 e0 l = true) →
    ∃ st2, processLines s0 e0 st ls = .ok st2 ∧
      st2.found = (st.found || ls.any txHit) := by
  induction ls with
  | nil =>
    intro st _
    exact ⟨st, rfl, by simp⟩
  | cons l ls ih =>
    intro st hwf
    obtain ⟨st1, h1, hf1⟩ := processLine_found s0 e0 st l (hwf l (List.mem_cons_self _ _))
    obtain ⟨st2, h2, hf2⟩ := ih st1 (fun x hx => hwf x (List.mem_cons_of_mem _ hx))
    refine ⟨st2, ?_, ?_⟩
    · rw [processLines_cons, h1, exceptBind_ok, h2]
    · rw [hf2, hf1]
      simp [Bool.or_assoc]

theorem processLines_spans (s0 e0 : Int) (ls : List String) :
    ∀ st st2 : BuildState, processLines s0 e0 st ls = .ok st2 →
    SpanInv s0 e0 st.exons → SpanInv s0 e0 st.cds →
    SpanInv s0 e0 st2.exons ∧ SpanInv s0 e0 st2.cds := by
  induction ls with
  | nil =>
    intro st st2 h hex hcd
    injection h with h2
    subst h2
    exact ⟨hex, hcd⟩
  | cons l ls ih =>
    intro st st2 h hex hcd
    rw [processLines_cons] at h
    cases h1 : processLine s0 e0 st l with
    | error e =>
      rw [h1, exceptBind_error] at h
      exact Except.noConfusion h
    | ok st1 =>
      rw [h1, exceptBind_ok] at h
      obtain ⟨hex1, hcd1⟩ := processLine_spans s0 e0 st st1 l h1 hex hcd
      exact ih st1 st2 h hex1 hcd1

theorem queryVariant_none (prov : Provider) (name : String) (s0 e0 : Int)
    (st : BuildState) (h : prov name s0 e0 = none) :
    queryVariant prov name s0 e0 st = .ok st := by
  unfold queryVariant
  rw [h]

theorem queryVariant_some (prov : Provider) (name : String) (s0 e0 : Int)
    (st : BuildState) (ls : List String) (h : prov name s0 e0 = some ls) :
    queryVariant prov name s0 e0 st = processLines s0 e0 st ls := by
  unfold queryVariant
  rw [h]

theorem buildCandidates_eq (prov : Provider) (chrom : String) (s0 e0 : Int) :
    buildCandidates prov chrom s0 e0 =
      queryVariant prov chrom s0 e0 emptyBuild >>= fun st =>
        if st.found = true then Except.ok st
        else queryVariant prov ("chr" ++ chrom) s0 e0 st := rfl

theorem emptyBuild_spanInv (s0 e0 : Int) :
    SpanInv s0 e0 emptyBuild.exons ∧ SpanInv s0 e0 emptyBuild.cds :=
  ⟨fun _ _ hmem => absurd hmem (List.not_mem_nil _),
   fun _ _ hmem => absurd hmem (List.not_mem_nil _)⟩

theorem queryVariant_spans (prov : Provider) (name : String) (s0 e0 : Int)
    (st st2 : BuildState) (h : queryVariant prov name s0 e0 st = .ok st2)
    (hex : SpanInv s0 e0 st.exons) (hcd : SpanInv s0 e0 st.cds) :
    SpanInv s0 e0 st2.exons ∧ SpanInv s0 e0 st2.cds := by
  unfold queryVariant at h
  split at h
  · injection h with h2
    subst h2
    exact ⟨hex, hcd⟩
  · exact processLines_spans s0 e0 _ st st2 h hex hcd

theorem buildCandidates_spans (prov : Provider) (chrom : String) (s0 e0 : Int)
    (st : BuildState) (h : buildCandidates prov chrom s0 e0 = .ok st) :
    SpanInv s0 e0 st.exons ∧ SpanInv s0 e0 st.cds := by
  unfold buildCandidates at h
  cases h1 : queryVariant prov chrom s0 e0 emptyBuild with
  | error e =>
    rw [h1, exceptBind_error] at h
    exact Except.noConfusion h
  | ok st1 =>
    rw [h1, exceptBind_ok] at h
    obtain ⟨hex1, hcd1⟩ :=
      queryVariant_spans prov chrom s0 e0 emptyBuild st1 h1
        (emptyBuild_spanInv s0 e0).1 (emptyBuild_spanInv s0 e0).2
    by_cases hf : st1.found
    · rw [if_pos hf] at h
      injection h with h2
      subst h2
      exact ⟨hex1, hcd1⟩
    · rw [if_neg hf] at h
      exact queryVariant_spans prov _ s0 e0 st1 st h hex1 hcd1

/-- Claim C2: the candidate builder tries the bare chromosome name first and
the `chr`-prefixed name second; a lookup failure on a variant is non-fatal and
moves to the next variant; processing a variant's (well-formed, overlapping)
lines sets the `found` flag exactly when some line is a transcript-type line
with a transcript id; when the bare variant contains such a line the builder's
result is that variant's result alone (the second variant is never consulted),
and when it does not — for example when the bare variant yields only exon/CDS
lines — the builder carries its state into the `chr`-prefixed variant. -/
theorem claim_C2_variant_order (prov : Provider) (chrom : String) (s0 e0 : Int)
    (lines : List String) (st : BuildState) :
    ((∀ l ∈ lines, wfLine s0 e0 l = true) →
      ∃ st2, processLines s0 e0 st lines = .ok st2 ∧
        st2.found = (st.found || lines.any txHit)) ∧
    (prov chrom s0 e0 = none →
      buildCandidates prov chrom s0 e0 =
        queryVariant prov ("chr" ++ chrom) s0 e0 emptyBuild) ∧
    (prov chrom s0 e0 = some lines → (∀ l ∈ lines, wfLine s0 e0 l = true) →
      lines.any txHit = true →
      buildCandidates prov chrom s0 e0 = processLines s0 e0 emptyBuild lines) ∧
    (prov chrom s0 e0 = some lines → (∀ l ∈ lines, wfLine s0 e0 l = true) →
      lines.any txHit = false →
      ∃ st1, processLines s0 e0 emptyBuild lines = .ok st1 ∧ st1.found = false ∧
        buildCandidates prov chrom s0 e0 =
          queryVariant prov ("chr" ++ chrom) s0 e0 st1) := by
  refine ⟨processLines_found s0 e0 lines st, ?_, ?_, ?_⟩
  · intro h1
    rw [buildCandidates_eq, queryVariant_none prov chrom s0 e0 emptyBuild h1,
      exceptBind_ok]
    rw [if_neg (by decide)]
  · intro h1 hwf hany
    obtain ⟨st1, hp, hf⟩ := processLines_found s0 e0 lines emptyBuild hwf
    have hf1 : st1.found = true := by
      rw [hf, hany]
      simp [emptyBuild]
    rw [buildCandidates_eq, queryVariant_some prov chrom s0 e0 emptyBuild lines h1,
      hp, exceptBind_ok, if_pos hf1]
  · intro h1 hwf hany
    obtain ⟨st1, hp, hf⟩ := processLines_found s0 e0 lines emptyBuild hwf
    have hf1 : st1.found = false := by
      rw [hf, hany]
      simp [emptyBuild]
    refine ⟨st1, hp, hf1, ?_⟩
    rw [buildCandidates_eq, queryVariant_some prov chrom s0 e0 emptyBuild lines h1,
      hp, exceptBind_ok, if_neg (by rw [hf1]; exact Bool.false_ne_true)]

theorem claim_C2_witness :
    (∃ st2, processLines 0 1000 emptyBuild [lTxV2] = .ok st2 ∧
      st2.found = (emptyBuild.found || [lTxV2].any txHit)) ∧
    (∃ st1, processLines 0 1000 emptyBuild [lExonV1] = .ok st1 ∧
      st1.found = false ∧
      buildCandidates provC10 "1" 0 1000 =
        queryVariant provC10 ("chr" ++ "1") 0 1000 st1) := by
  constructor
  · exact (claim_C2_variant_order provNone "x" 0 1000 [lTxV2] emptyBuild).1 (by decide)
  · exact (claim_C2_variant_order provC10 "1" 0 1000 [lExonV1] emptyBuild).2.2.2
      (by decide) (by decide) (by decide)

theorem lookup_mem_spanMap {m : SpanMap} {k : String} {l : List (Int × Int)}
    (h : List.lookup k m = some l) : (k, l) ∈ m := by
  induction m with
  | nil => exact Option.noConfusion h
  | cons p rest ih =>
    obtain ⟨k0, l0⟩ := p
    by_cases hk : k = k0
    · subst hk
      simp only [List.lookup, beq_self_eq_true] at h
      injection h with h2
      subst h2
      exact List.mem_cons_self _ _
    · have hk2 : (k == k0) = false := beq_eq_false_iff_ne.mpr hk
      simp only [List.lookup, hk2] at h
      exact List.mem_cons_of_mem _ (ih h)

theorem txPct_bounds (s0 e0 tstart tend : Int) :
    0 ≤ txPct s0 e0 tstart tend ∧ txPct s0 e0 tstart tend ≤ 100 ∧
    (max 0 (tend - tstart + 1) = 0 → txPct s0 e0 tstart tend = 0) := by
  have hol : (0 : Int) ≤ overlap_len s0 e0 (tstart - 1) tend := le_max_left 0 _
  have hbound : overlap_len s0 e0 (tstart - 1) tend ≤ max 0 (tend - tstart + 1) := by
    simp only [overlap_len]
    omega
  unfold txPct
  by_cases h : (max 0 (tend - tstart + 1) : Int) > 0
  · rw [if_pos h]
    have htotQ : (0 : ℚ) < ((max 0 (tend - tstart + 1) : Int) : ℚ) := by exact_mod_cast h
    have holQ : (0 : ℚ) ≤ ((overlap_len s0 e0 (tstart - 1) tend : Int) : ℚ) := by
      exact_mod_cast hol
    have hbQ : ((overlap_len s0 e0 (tstart - 1) tend : Int) : ℚ) ≤
        ((max 0 (tend - tstart + 1) : Int) : ℚ) := by exact_mod_cast hbound
    refine ⟨?_, ?_, ?_⟩
    · exact div_nonneg (mul_nonneg (by norm_num) holQ) (le_of_lt htotQ)
    · rw [div_le_iff₀ htotQ]
      calc 100 * ((overlap_len s0 e0 (tstart - 1) tend : Int) : ℚ)
          ≤ 100 * ((max 0 (tend - tstart + 1) : Int) : ℚ) :=
            mul_le_mul_of_nonneg_left hbQ (by norm_num)
        _ = ((max 0 (tend - tstart + 1) : Int) : ℚ) * 100 := mul_comm _ _
        _ ≤ 100 * ((max 0 (tend - tstart + 1) : Int) : ℚ) := by
            rw [mul_comm]
    · intro hz
      rw [hz] at h
      exact absurd h (by norm_num)
  · rw [if_neg h]
    exact ⟨le_refl 0, by norm_num, fun _ => rfl⟩

theorem pctOf_bounds (s0 e0 : Int) (spans : List (Int × Int))
    (hsp : ∀ sp ∈ spans, 0 < overlap_len s0 e0 (sp.1 - 1) sp.2) :
    0 ≤ pctOf s0 e0 spans ∧ pctOf s0 e0 spans ≤ 100 := by
  have hcov0 : (0 : Int) ≤ (spans.map (fun p => overlap_len s0 e0 (p.1 - 1) p.2)).sum := by
    apply List.sum_nonneg
    intro x hx
    obtain ⟨p, _, rfl⟩ := List.mem_map.mp hx
    exact le_max_left 0 _
  have hsum : (spans.map (fun p => overlap_len s0 e0 (p.1 - 1) p.2)).sum ≤
      (spans.map (fun p => (p.2 - p.1 + 1 : Int))).sum := by
    apply List.sum_le_sum
    intro p hp
    have h1 := hsp p hp
    simp only [overlap_len] at h1 ⊢
    omega
  unfold pctOf
  by_cases h : ((spans.map (fun p => (p.2 - p.1 + 1 : Int))).sum : Int) > 0
  · rw [if_pos h]
    have htotQ : (0 : ℚ) < (((spans.map (fun p => (p.2 - p.1 + 1 : Int))).sum : Int) : ℚ) := by
      exact_mod_cast h
    have hcovQ : (0 : ℚ) ≤
        (((spans.map (fun p => overlap_len s0 e0 (p.1 - 1) p.2)).sum : Int) : ℚ) := by
      exact_mod_cast hcov0
    have hbQ : (((spans.map (fun p => overlap_len s0 e0 (p.1 - 1) p.2)).sum : Int) : ℚ) ≤
        (((spans.map (fun p => (p.2 - p.1 + 1 : Int))).sum : Int) : ℚ) := by
      exact_mod_cast hsum
    constructor
    · exact div_nonneg (mul_nonneg (by norm_num) hcovQ) (le_of_lt htotQ)
    · rw [div_le_iff₀ htotQ]
      exact mul_le_mul_of_nonneg_left hbQ (by norm_num)
  · rw [if_neg h]
    exact ⟨le_refl 0, by norm_num⟩

/-- Claim C3: the transcript percentage and every aggregate percentage over
builder-produced spans lie in `[0, 100]`; a zero total span length is guarded
and yields exactly `0` (no division is attempted); and every span recorded by
the candidate builder overlaps the query window (which is what makes the
aggregate bound hold on the real pipeline). -/
theorem claim_C3_pct_bounds :
    (∀ s0 e0 tstart tend : Int,
      0 ≤ txPct s0 e0 tstart tend ∧ txPct s0 e0 tstart tend ≤ 100 ∧
      (max 0 (tend - tstart + 1) = 0 → txPct s0 e0 tstart tend = 0)) ∧
    (∀ (s0 e0 : Int) (spans : List (Int × Int)),
      (∀ sp ∈ spans, 0 < overlap_len s0 e0 (sp.1 - 1) sp.2) →
      0 ≤ pctOf s0 e0 spans ∧ pctOf s0 e0 spans ≤ 100) ∧
    (∀ (s0 e0 : Int) (spans : List (Int × Int)),
      (spans.map (fun p => (p.2 - p.1 + 1 : Int))).sum = 0 →
      pctOf s0 e0 spans = 0) ∧
    (∀ (prov : Provider) (chrom : String) (s0 e0 : Int) (st : BuildState),
      buildCandidates prov chrom s0 e0 = .ok st →
      ∀ info : TxInfo,
        (0 ≤ pctOf s0 e0 (getSpans st.exons info.tx_id) ∧
          pctOf s0 e0 (getSpans st.exons info.tx_id) ≤ 100) ∧
        (0 ≤ pctOf s0 e0 (getSpans st.cds info.tx_id) ∧
          pctOf s0 e0 (getSpans st.cds info.tx_id) ≤ 100)) := by
  refine ⟨txPct_bounds, pctOf_bounds, ?_, ?_⟩
  · intro s0 e0 spans hz
    unfold pctOf
    rw [hz]
    rw [if_neg (by norm_num)]
  · intro prov chrom s0 e0 st hb info
    obtain ⟨hex, hcd⟩ := buildCandidates_spans prov chrom s0 e0 st hb
    constructor
    · cases hl : List.lookup info.tx_id st.exons with
      | none =>
        unfold getSpans
        rw [hl]
        exact pctOf_bounds s0 e0 [] (by intro sp hsp; cases hsp)
      | some spans =>
        unfold getSpans
        rw [hl]
        exact pctOf_bounds s0 e0 spans (hex _ spans (lookup_mem_spanMap hl))
    · cases hl : List.lookup info.tx_id st.cds with
      | none =>
        unfold getSpans
        rw [hl]
        exact pctOf_bounds s0 e0 [] (by intro sp hsp; cases hsp)
      | some spans =>
        unfold getSpans
        rw [hl]
        exact pctOf_bounds s0 e0 spans (hcd _ spans (lookup_mem_spanMap hl))

theorem map_insertDesc (c : Row) (l : List Row) :
    (insertDesc c l).map (fun r => r.priority_score) =
      insertDescQ c.priority_score (l.map (fun r => r.priority_score)) := by
  induction l with
  | nil => rfl
  | cons d ds ih =>
    simp only [insertDesc, insertDescQ, List.map_cons]
    split
    · simp [ih]
    · simp

theorem map_sortByScore (l : List Row) :
    (sortByScore l).map (fun r => r.priority_score) =
      sortDescQ (l.map (fun r => r.priority_score)) := by
  induction l with
  | nil => rfl
  | cons c cs ih =>
    simp only [sortByScore, sortDescQ, List.map_cons, map_insertDesc, ih]

theorem map_filter_score (l : List Row) (t : ℚ) :
    ((l.filter (fun x => decide (|x.priority_score - t| < 1 / 1000000))).map
        (fun r => r.priority_score)) =
      (l.map (fun r => r.priority_score)).filter
        (fun q => decide (|q - t| < 1 / 1000000)) := by
  induction l with
  | nil => rfl
  | cons c cs ih =>
    simp only [List.filter_cons, List.map_cons]
    split
    · simpa using ih
    · simpa using ih

/-- Claim C1 (counterexample): the code stores the 3-decimal-rounded score on
the candidate and performs both the sort and the `best_all` comparison on that
stored rounded value, not on the full-precision score.  The two transcripts
below have full-precision scores `50.0001` and `50.0004` (difference `3e-4`,
far above `1e-6`, and the second strictly larger), yet both candidates are
stored with score `50.0`, the sort leaves the lower-full-score candidate
first, and `best_all` emits both — while the spec's full-precision rule would
emit only the higher one. -/
theorem claim_C1_counterexample :
    mkCandidate M0 "1" 0 1 [] [] infoCexA = .ok cexRow1 ∧
    mkCandidate M0 "1" 0 1 [] [] infoCexB = .ok cexRow2 ∧
    candFullScore M0 0 1 [] [] infoCexA = .ok (mkRat 500001 10000) ∧
    candFullScore M0 0 1 [] [] infoCexB = .ok (mkRat 125001 2500) ∧
    ¬ (|(mkRat 500001 10000 : ℚ) - mkRat 125001 2500| < 1 / 1000000) ∧
    (mkRat 500001 10000 : ℚ) < mkRat 125001 2500 ∧
    cexRow1.priority_score = 50 ∧ cexRow2.priority_score = 50 ∧
    sortByScore [cexRow1, cexRow2] = [cexRow1, cexRow2] ∧
    resolvePicks "best_all" (sortByScore [cexRow1, cexRow2]) =
      some [cexRow1, cexRow2] ∧
    specBestAllFull [mkRat 500001 10000, mkRat 125001 2500] =
      [mkRat 125001 2500] := by decide

/-- Claim C1 (amended): the composite priority score is rounded to 3 decimal
places when the candidate is constructed, and the sort and the `best_all`
comparison against the top score (difference less than `1e-6`) operate on that
stored rounded value: the code's behavior is exactly the spec's full-precision
rule applied to the rounded scores. -/
theorem claim_C1_rounded_resolution :
    (∀ (M : PyMath) (chrom : String) (s0 e0 : Int) (exM cdM : SpanMap)
      (info : TxInfo) (q : ℚ), candFullScore M s0 e0 exM cdM info = .ok q →
      ∃ r, mkCandidate M chrom s0 e0 exM cdM info = .ok r ∧
        r.priority_score = pyround3 q) ∧
    (∀ cands : List Row,
      (sortByScore cands).map (fun r => r.priority_score) =
        sortDescQ (cands.map (fun r => r.priority_score))) ∧
    (∀ cands : List Row, cands ≠ [] →
      ∃ picks, resolvePicks "best_all" (sortByScore cands) = some picks ∧
        picks.map (fun r => r.priority_score) =
          specBestAllFull (cands.map (fun r => r.priority_score))) := by
  refine ⟨?_, map_sortByScore, ?_⟩
  · intro M chrom s0 e0 exM cdM info q hq
    unfold mkCandidate
    rw [hq, exceptBind_ok]
    exact ⟨_, rfl, rfl⟩
  · intro cands hne
    obtain ⟨t, rest, hs⟩ := sortByScore_cons cands hne
    refine ⟨(t :: rest).filter
      (fun x => decide (|x.priority_score - t.priority_score| < 1 / 1000000)),
      ?_, ?_⟩
    · rw [hs]
      simp [resolvePicks]
    · rw [map_filter_score]
      have hmap : sortDescQ (cands.map (fun r => r.priority_score)) =
          t.priority_score :: rest.map (fun r => r.priority_score) := by
        rw [← map_sortByScore, hs]
        simp
      unfold specBestAllFull
      rw [hmap]
      simp

theorem claim_C1_rounded_resolution_witness :
    (∃ r, mkCandidate M0 "1" 0 1 [] [] infoCexA = .ok r ∧
      r.priority_score = pyround3 (mkRat 500001 10000)) ∧
    (∃ picks, resolvePicks "best_all" (sortByScore [rowW]) = some picks ∧
      picks.map (fun r => r.priority_score) =
        specBestAllFull ([rowW].map (fun r => r.priority_score))) :=
  ⟨claim_C1_rounded_resolution.1 M0 "1" 0 1 [] [] infoCexA
      (mkRat 500001 10000) (by decide),
   claim_C1_rounded_resolution.2.2 [rowW] (by decide)⟩

theorem claim_C3_witness :
    (0 ≤ txPct 0 10 1 5 ∧ txPct 0 10 1 5 ≤ 100 ∧
      (max 0 ((5 : Int) - 1 + 1) = 0 → txPct 0 10 1 5 = 0)) ∧
    (0 ≤ pctOf 0 10 [(1, 5)] ∧ pctOf 0 10 [(1, 5)] ≤ 100) ∧
    pctOf 0 10 [(3, 2)] = 0 :=
  ⟨claim_C3_pct_bounds.1 0 10 1 5,
   claim_C3_pct_bounds.2.1 0 10 [(1, 5)] (by decide),
   claim_C3_pct_bounds.2.2.1 0 10 [(3, 2)] (by decide)⟩

/-- Claim C10: exon or CDS spans appended while processing a chromosome-name
variant whose query yields no transcript line survive into the next variant:
the span maps are initialized once per interval, before the variant loop.
Here the bare-name query yields only the exon line `[100, 200]` for `T1` (no
transcript hit), the `chr`-prefixed query yields the transcript line and a
second exon line `[300, 400]`, and the final exon map for `T1` holds both
spans — the collection handed to coverage computation mixes both variants. -/
theorem claim_C10_cross_variant_spans :
    buildCandidates provC10 "1" 0 1000 =
      .ok ⟨[("T1", ⟨"T1", some "G1", none, none, "+", 50, 900⟩)],
           [("T1", [(100, 200), (300, 400)])], [], true⟩ ∧
    provC10 "1" 0 1000 = some [lExonV1] ∧
    [lExonV1].any txHit = false ∧
    provC10 "chr1" 0 1000 = some [lTxV2, lExonV2] := by decide

end Annota
